import Mathlib

/-!
Shallow embedding of the proof-assistant web service (generate–verify–refine
orchestration, verifier adapter, resilient call wrapper, stream encoder,
session store) together with theorems checking the specification's claims.

Python strings are modelled by Lean `String` (which in this toolchain wraps a
`List Char`, matching Python's character-sequence view); the Python string
primitives used by the source (`strip`, `split`, `replace`, `in`,
`startswith`, slicing, `len`, `join`) are given executable character-level
definitions below.  External effects (subprocess runs, network calls) are
modelled by oracle values describing the outcome of each call, and the
embedded functions return, alongside the source's return value, an explicit
trace of the externally observable calls they make.
-/

/- ## Python string primitives -/

/-- Whitespace test used by Python `str.strip`. -/
def pyIsSpace (c : Char) : Bool := c.isWhitespace

/-- Character-level model of Python `str.strip()`. -/
def pyStripChars (s : List Char) : List Char :=
  ((s.dropWhile pyIsSpace).reverse.dropWhile pyIsSpace).reverse

/-- Character-level model of Python `str.split(sep)` for a one-character
separator: keeps empty segments, so the result is never empty. -/
def pySplitChar (sep : Char) : List Char → List (List Char)
  | [] => [[]]
  | c :: rest =>
    match pySplitChar sep rest with
    | [] => [[]]
    | grp :: grps => if c = sep then [] :: grp :: grps else (c :: grp) :: grps

/-- Fuelled character-level model of Python `str.replace(pat, repl)` for a
non-empty pattern: leftmost, non-overlapping. The fuel is the length of the
subject string, which each step consumes. -/
def pyReplaceAux (pat repl : List Char) : Nat → List Char → List Char
  | _, [] => []
  | 0, s => s
  | fuel + 1, c :: rest =>
    if pat.isPrefixOf (c :: rest) then
      repl ++ pyReplaceAux pat repl fuel (List.drop (pat.length - 1) rest)
    else
      c :: pyReplaceAux pat repl fuel rest

/-- Character-level model of Python `pat in s` (substring test). -/
def pyContainsAux (pat : List Char) : List Char → Bool
  | [] => pat.isPrefixOf []
  | c :: rest => pat.isPrefixOf (c :: rest) || pyContainsAux pat rest

/-- Python `s.strip()`. -/
def pyStrip (s : String) : String := ⟨pyStripChars s.data⟩

/-- Python `s.split(sep)` for a one-character separator. -/
def pySplit (sep : Char) (s : String) : List String :=
  (pySplitChar sep s.data).map String.mk

/-- Python `s.replace(pat, repl)` for a non-empty `pat`. -/
def pyReplace (s pat repl : String) : String :=
  ⟨pyReplaceAux pat.data repl.data s.data.length s.data⟩

/-- Python `pat in s`. -/
def pyContains (s pat : String) : Bool := pyContainsAux pat.data s.data

/-- Python `s.startswith(pat)`. -/
def pyStartsWith (s pat : String) : Bool := pat.data.isPrefixOf s.data

/-- Python `len(s)` (number of characters). -/
def pyLen (s : String) : Nat := s.data.length

/-- Python `s[:n]` (first `n` characters). -/
def pyTake (n : Nat) (s : String) : String := ⟨s.data.take n⟩

/-- Python `sep.join(xs)`. -/
def pyJoin (sep : String) (xs : List String) : String :=
  ⟨List.intercalate sep.data (xs.map String.data)⟩

/- ## Verifier adapter: `proof_assistant/lean_executor.py` -/

/-- Outcome of the `subprocess.run(["lean", "--version"], timeout=5)` call in
`check_lean_installation`: the process completed with a return code, the call
timed out (`subprocess.TimeoutExpired`), or the executable was missing
(`FileNotFoundError`). -/
inductive ProbeOutcome where
  | completed (returncode : Int)
  | timeoutExpired
  | fileNotFound
deriving DecidableEq

/-- The `timeout=5` argument passed by `check_lean_installation` to the probe
subprocess call. -/
def checkInstallationTimeout : Nat := 5

/-- `LeanExecutor.check_lean_installation`: returns whether the probe
completed with return code 0; `TimeoutExpired` and `FileNotFoundError` are
caught and yield `False`. -/
def check_lean_installation : ProbeOutcome → Bool
  | .completed rc => rc == 0
  | .timeoutExpired => false
  | .fileNotFound => false

/-- Outcome of the `subprocess.run(["lean", temp_file], timeout=...)` call in
`verify_proof`: completed with return code and captured output, timed out, or
raised some other exception (caught by the `except Exception` clause). -/
inductive RunOutcome where
  | completed (returncode : Int) (stdout stderr : String)
  | timeoutExpired
  | raised (msg : String)
deriving DecidableEq

/-- Observable temporary-file operations performed by `verify_proof`:
creation of the named temporary `.lean` file and its `os.unlink` release. -/
inductive FileOp where
  | create
  | unlink
deriving DecidableEq

/-- `LeanExecutor.verify_proof`: returns the `(is_valid, message)` pair of the
source together with the trace of temporary-file operations.  The `finally`
block of the source unlinks the temporary file on the normal, rejection,
timeout and exception paths alike; if the installation probe fails the
function returns before any file is created. -/
def verify_proof (probe : ProbeOutcome) (run : RunOutcome) (timeoutCfg : Nat) :
    (Bool × String) × List FileOp :=
  if !check_lean_installation probe then
    ((false, "错误: Lean4未安装或无法访问。请先安装Lean4。"), [])
  else
    match run with
    | .completed rc out err =>
      if rc == 0 then
        ((true, "证明验证成功！"), [.create, .unlink])
      else
        ((false, if err ≠ "" then err else out), [.create, .unlink])
    | .timeoutExpired =>
      ((false, s!"证明验证超时（超过{timeoutCfg}秒）"), [.create, .unlink])
    | .raised m =>
      ((false, s!"验证过程中发生错误: {m}"), [.create, .unlink])

/- ## Session store: `database.py` -/

/-- Default title computed by `ProofDatabase.create_session` when no title is
supplied: the statement itself, or its first 50 characters followed by
`"..."` when it is longer than 50 characters. -/
def default_session_title (statement : String) : String :=
  if pyLen statement > 50 then pyTake 50 statement ++ "..." else statement

/-- `ProofDatabase.create_session`: returns the `(title, statement)` pair
stored in the inserted row.  A missing title (`None`) or an empty title (both
falsy in Python) is replaced by the default title. -/
def create_session (statement : String) (title : Option String) : String × String :=
  let t :=
    match title with
    | none => default_session_title statement
    | some t0 => if t0 = "" then default_session_title statement else t0
  (t, statement)

/- ## Proof orchestrator: `proof_assistant/proof_processor.py` -/

/-- Outcomes of the three `LLMClient` calls made by `ProofProcessor`:
`generate_lean_proof`, `refine_proof` and `explain_proof`.  Each either
returns text or raises an exception carrying a message. -/
structure LLMOracle where
  generate : Except String String
  refine : String → String → Except String String
  explain : String → Except String String

/-- Environment seen by `ProofProcessor` through its `LeanExecutor`: whether
`check_lean_installation` reports an installed toolchain, and the
`(is_valid, message)` outcome of `verify_proof` on each candidate. -/
structure LeanOracle where
  installed : Bool
  verify : String → Bool × String

/-- Externally observable calls made by the orchestrator: the initial
generation call, a verification call with its outcome, a refinement call, and
the explanation call. -/
inductive PCall where
  | genCall
  | verifyCall (code : String) (ok : Bool) (msg : String)
  | refineCall (code msg : String)
  | explainCall
deriving DecidableEq

/-- Tests whether a trace event is a verification call. -/
def PCall.isVerify : PCall → Bool
  | .verifyCall _ _ _ => true
  | _ => false

/-- Tests whether a trace event is the initial generation call. -/
def PCall.isGen : PCall → Bool
  | .genCall => true
  | _ => false

/-- Tests whether a trace event is a refinement call. -/
def PCall.isRefine : PCall → Bool
  | .refineCall _ _ => true
  | _ => false

/-- `ProofProcessor._clean_lean_code`: strip the text, drop every line whose
stripped form starts with triple backticks, join and strip again. -/
def clean_lean_code (code : String) : String :=
  pyStrip (pyJoin "\n"
    ((pySplit '\n' (pyStrip code)).filter (fun l => !pyStartsWith (pyStrip l) "```")))

/-- The `for attempt in range(self.max_attempts)` loop of
`ProofProcessor._verify_and_refine_proof`, with `fuel` the number of
remaining iterations and `attempt` the current zero-based index.  Returns the
`(success, result_parts)` pair of the source alongside the trace of verifier
and refinement calls the iterations perform. -/
def vrLoop (lo : LeanOracle) (llm : LLMOracle) (maxAttempts : Nat) :
    Nat → Nat → String → List String → (Bool × List String) × List PCall
  | 0, _, _, parts =>
    ((false, parts ++ [s!"\n❌ 经过{maxAttempts}次尝试后仍无法验证证明"]), [])
  | fuel + 1, attempt, code, parts =>
    let parts1 := parts ++ [s!"**验证尝试 {attempt + 1}/{maxAttempts}:**"]
    let vr := lo.verify code
    if vr.1 then
      let parts2 := parts1 ++ ["✅ 证明验证成功!"]
      let parts3 :=
        if attempt > 0 then
          parts2 ++ ["\n**最终修正后的代码:**", "```lean", code, "```"]
        else parts2
      ((true, parts3), [PCall.verifyCall code vr.1 vr.2])
    else
      let parts2 := parts1 ++ [s!"❌ 验证失败: {vr.2}"]
      if attempt < maxAttempts - 1 then
        let parts3 := parts2 ++ ["正在尝试修正错误..."]
        match llm.refine code vr.2 with
        | .ok c2 =>
          let r := vrLoop lo llm maxAttempts fuel (attempt + 1) (clean_lean_code c2)
            (parts3 ++ ["已生成修正版本，继续验证..."])
          (r.1, PCall.verifyCall code vr.1 vr.2 :: PCall.refineCall code vr.2 :: r.2)
        | .error e =>
          ((false, parts3 ++ [s!"修正过程中出错: {e}",
            s!"\n❌ 经过{maxAttempts}次尝试后仍无法验证证明"]),
            [PCall.verifyCall code vr.1 vr.2, PCall.refineCall code vr.2])
      else
        let r := vrLoop lo llm maxAttempts fuel (attempt + 1) code parts2
        (r.1, PCall.verifyCall code vr.1 vr.2 :: r.2)

/-- `ProofProcessor._verify_and_refine_proof`: runs the loop from attempt 0
with `max_attempts` iterations available and an empty `result_parts`. -/
def verify_and_refine_proof (lo : LeanOracle) (llm : LLMOracle) (maxAttempts : Nat)
    (lean_code : String) : (Bool × String) × List PCall :=
  let r := vrLoop lo llm maxAttempts maxAttempts 0 lean_code []
  ((r.1.1, pyJoin "\n" r.1.2), r.2)

/-- `ProofProcessor.process_proof`, returning the accumulated `result_parts`
list together with the trace of LLM and verifier calls.  When the
installation probe fails the source appends a warning block and still
proceeds to generation; verification runs only when the probe succeeds;
explanation is attempted whenever generation succeeded. -/
def process_proof_parts (lo : LeanOracle) (llm : LLMOracle) (maxAttempts : Nat)
    (proof_statement : String) : List String × List PCall :=
  let parts := [s!"**输入的证明陈述:**\n{proof_statement}\n"]
  let parts :=
    if !lo.installed then
      parts ++ ["**警告:** Lean4未安装，将只生成证明代码而无法验证。",
        "请运行以下命令安装Lean4:", "```bash",
        "curl https://raw.githubusercontent.com/leanprover/elan/master/elan-init.sh -sSf | sh",
        "source ~/.profile", "```\n"]
    else parts
  let parts := parts ++ ["**正在生成Lean4证明代码...**\n"]
  let trace := [PCall.genCall]
  match llm.generate with
  | .error e => (parts ++ [s!"**生成证明时出错:** {e}"], trace)
  | .ok raw =>
    let lean_code := clean_lean_code raw
    let parts := parts ++ ["**生成的Lean4代码:**", "```lean", lean_code, "```\n"]
    let afterVerify :=
      if lo.installed then
        let v := verify_and_refine_proof lo llm maxAttempts lean_code
        (parts ++ [v.1.2], trace ++ v.2)
      else (parts, trace)
    let trace2 := afterVerify.2 ++ [PCall.explainCall]
    match llm.explain lean_code with
    | .ok expl => (afterVerify.1 ++ ["**证明步骤解释:**", expl], trace2)
    | .error e => (afterVerify.1 ++ [s!"**生成解释时出错:** {e}"], trace2)

/-- `ProofProcessor.process_proof` as in the source: the joined report string
together with the call trace. -/
def process_proof (lo : LeanOracle) (llm : LLMOracle) (maxAttempts : Nat)
    (proof_statement : String) : String × List PCall :=
  let r := process_proof_parts lo llm maxAttempts proof_statement
  (pyJoin "\n" r.1, r.2)

/- ## List-splitting helper lemmas -/

/-- Decomposition of a singleton list written as an append around an element. -/
theorem list_singleton_split {α : Type} {x y : α} {pre post : List α}
    (h : [y] = pre ++ x :: post) : pre = [] ∧ y = x ∧ post = [] := by
  cases pre with
  | nil =>
    injection h with h1 h2
    exact ⟨rfl, h1, h2.symm⟩
  | cons a pre2 =>
    injection h with h1 h2
    exact absurd h2.symm (by simp)

/-- Peeling the head off an append decomposition when the distinguished
element differs from the head. -/
theorem list_cons_split_ne {α : Type} {x y : α} {l pre post : List α}
    (h : y :: l = pre ++ x :: post) (hxy : x ≠ y) :
    ∃ pre2, pre = y :: pre2 ∧ l = pre2 ++ x :: post := by
  cases pre with
  | nil =>
    injection h with h1 h2
    exact absurd h1.symm hxy
  | cons a pre2 =>
    injection h with h1 h2
    exact ⟨pre2, by rw [h1], h2⟩

/- ## Trace structure of the refine loop -/

/-- Core invariant of the refine loop: a run with `fuel` remaining iterations
performs at most `fuel` verification calls, and an accepted verification call
is the last event of the loop trace and forces a `True` loop result. -/
theorem vrLoop_trace_spec (lo : LeanOracle) (llm : LLMOracle) (maxAttempts : Nat) :
    ∀ (fuel attempt : Nat) (code : String) (parts : List String),
      (vrLoop lo llm maxAttempts fuel attempt code parts).2.countP PCall.isVerify ≤ fuel ∧
      ∀ pre c m post,
        (vrLoop lo llm maxAttempts fuel attempt code parts).2 =
          pre ++ PCall.verifyCall c true m :: post →
          post = [] ∧ (vrLoop lo llm maxAttempts fuel attempt code parts).1.1 = true := by
  intro fuel
  induction fuel with
  | zero =>
    intro attempt code parts
    constructor
    · simp [vrLoop]
    · intro pre c m post h
      simp [vrLoop] at h
  | succ fuel ih =>
    intro attempt code parts
    rcases hv : lo.verify code with ⟨ok, msg⟩
    cases ok with
    | true =>
      constructor
      · simp [vrLoop, hv, PCall.isVerify]
      · intro pre c m post h
        simp only [vrLoop, hv] at h ⊢
        obtain ⟨-, -, hpost⟩ := list_singleton_split h
        exact ⟨hpost, rfl⟩
    | false =>
      by_cases ha : attempt < maxAttempts - 1
      · rcases hr : llm.refine code msg with e | c2
        · -- refinement raised: the loop breaks after this rejection
          constructor
          · simp [vrLoop, hv, ha, hr, PCall.isVerify]
          · intro pre c m post h
            simp only [vrLoop, hv, ha, hr] at h
            obtain ⟨pre2, -, h2⟩ :=
              list_cons_split_ne h (by simp)
            obtain ⟨-, heq, -⟩ := list_singleton_split h2
            simp at heq
        · -- refinement produced a new candidate: recurse
          have hstep :
              (vrLoop lo llm maxAttempts (fuel + 1) attempt code parts).2 =
                PCall.verifyCall code false msg :: PCall.refineCall code msg ::
                  (vrLoop lo llm maxAttempts fuel (attempt + 1) (clean_lean_code c2)
                    ((parts ++ [s!"**验证尝试 {attempt + 1}/{maxAttempts}:**"] ++
                      [s!"❌ 验证失败: {msg}"] ++ ["正在尝试修正错误..."]) ++
                      ["已生成修正版本，继续验证..."])).2 ∧
              (vrLoop lo llm maxAttempts (fuel + 1) attempt code parts).1.1 =
                (vrLoop lo llm maxAttempts fuel (attempt + 1) (clean_lean_code c2)
                  ((parts ++ [s!"**验证尝试 {attempt + 1}/{maxAttempts}:**"] ++
                    [s!"❌ 验证失败: {msg}"] ++ ["正在尝试修正错误..."]) ++
                    ["已生成修正版本，继续验证..."])).1.1 := by
            constructor <;> simp [vrLoop, hv, ha, hr]
          obtain ⟨ht, hb⟩ := hstep
          have hrec := ih (attempt + 1) (clean_lean_code c2)
            ((parts ++ [s!"**验证尝试 {attempt + 1}/{maxAttempts}:**"] ++
              [s!"❌ 验证失败: {msg}"] ++ ["正在尝试修正错误..."]) ++
              ["已生成修正版本，继续验证..."])
          constructor
          · rw [ht]
            have h1 := hrec.1
            simp [List.countP_cons, PCall.isVerify] at h1 ⊢
            omega
          · intro pre c m post h
            rw [ht] at h
            obtain ⟨pre2, -, h2⟩ := list_cons_split_ne h (by simp)
            obtain ⟨pre3, -, h3⟩ := list_cons_split_ne h2 (by simp)
            obtain ⟨hpost, hres⟩ := hrec.2 pre3 c m post h3
            exact ⟨hpost, by rw [hb, hres]⟩
      · -- final attempt rejected: continue (the next iteration exhausts fuel)
        have hstep :
            (vrLoop lo llm maxAttempts (fuel + 1) attempt code parts).2 =
              PCall.verifyCall code false msg ::
                (vrLoop lo llm maxAttempts fuel (attempt + 1) code
                  ((parts ++ [s!"**验证尝试 {attempt + 1}/{maxAttempts}:**"]) ++
                    [s!"❌ 验证失败: {msg}"])).2 ∧
            (vrLoop lo llm maxAttempts (fuel + 1) attempt code parts).1.1 =
              (vrLoop lo llm maxAttempts fuel (attempt + 1) code
                ((parts ++ [s!"**验证尝试 {attempt + 1}/{maxAttempts}:**"]) ++
                  [s!"❌ 验证失败: {msg}"])).1.1 := by
          constructor <;> simp [vrLoop, hv, ha]
        obtain ⟨ht, hb⟩ := hstep
        have hrec := ih (attempt + 1) code
          ((parts ++ [s!"**验证尝试 {attempt + 1}/{maxAttempts}:**"]) ++
            [s!"❌ 验证失败: {msg}"])
        constructor
        · rw [ht]
          have h1 := hrec.1
          simp [List.countP_cons, PCall.isVerify] at h1 ⊢
          omega
        · intro pre c m post h
          rw [ht] at h
          obtain ⟨pre2, -, h2⟩ := list_cons_split_ne h (by simp)
          obtain ⟨hpost, hres⟩ := hrec.2 pre2 c m post h2
          exact ⟨hpost, by rw [hb, hres]⟩

/- ## Theorems for claims C1, C2, C3 -/

/-- C2: for a run configured with `maxAttempts = N ≥ 1`, the refine loop
invokes the verifier at most `N` times — so the accumulated attempt history
never exceeds `maxAttempts` — and it terminates at the first accepted
outcome: an accepted verification is the final event of the loop trace. -/
theorem verify_refine_attempts_bounded (lo : LeanOracle) (llm : LLMOracle)
    (maxAttempts : Nat) (lean_code : String) (_hN : 1 ≤ maxAttempts) :
    (verify_and_refine_proof lo llm maxAttempts lean_code).2.countP PCall.isVerify ≤
      maxAttempts ∧
    ∀ pre c m post,
      (verify_and_refine_proof lo llm maxAttempts lean_code).2 =
        pre ++ PCall.verifyCall c true m :: post → post = [] := by
  have h := vrLoop_trace_spec lo llm maxAttempts maxAttempts 0 lean_code []
  have h2 : (verify_and_refine_proof lo llm maxAttempts lean_code).2 =
      (vrLoop lo llm maxAttempts maxAttempts 0 lean_code []).2 := rfl
  rw [h2]
  exact ⟨h.1, fun pre c m post hs => (h.2 pre c m post hs).1⟩

/-- Verifier oracle for the C2 witness: accepts exactly the candidate
`"simp"`. -/
def loC2 : LeanOracle :=
  ⟨true, fun c => if c = "simp" then (true, "证明验证成功！") else (false, "unsolved goals")⟩

/-- LLM oracle for the C2 witness: every call succeeds; refinement yields the
accepted candidate. -/
def llmC2 : LLMOracle :=
  ⟨Except.ok "rfl", fun _ _ => Except.ok "simp", fun _ => Except.ok "explanation"⟩

/-- Witness for C2 at `maxAttempts = 2` with a concrete run that is rejected
once and then accepted. -/
theorem verify_refine_attempts_bounded_witness :
    (verify_and_refine_proof loC2 llmC2 2 "rfl").2.countP PCall.isVerify ≤ 2 :=
  (verify_refine_attempts_bounded loC2 llmC2 2 "rfl" (by decide)).1

/-- C3: if a verification attempt accepts the candidate, the refine loop
stops right there with a `True` result — the acceptance is the `k`-th
verifier call with `k ≤ maxAttempts` and nothing follows it in the loop
trace — and in the whole orchestrator trace no generation or refinement call
occurs after the acceptance. -/
theorem refine_loop_stops_on_accept (lo : LeanOracle) (llm : LLMOracle)
    (maxAttempts : Nat) (lean_code stmt : String) :
    (∀ pre c m post,
      (verify_and_refine_proof lo llm maxAttempts lean_code).2 =
        pre ++ PCall.verifyCall c true m :: post →
        (verify_and_refine_proof lo llm maxAttempts lean_code).1.1 = true ∧
        post = [] ∧
        pre.countP PCall.isVerify + 1 ≤ maxAttempts) ∧
    (∀ pre c m post,
      (process_proof lo llm maxAttempts stmt).2 = pre ++ PCall.verifyCall c true m :: post →
        post.countP PCall.isGen = 0 ∧ post.countP PCall.isRefine = 0) := by
  have hspec := vrLoop_trace_spec lo llm maxAttempts maxAttempts 0 lean_code []
  have h2 : (verify_and_refine_proof lo llm maxAttempts lean_code).2 =
      (vrLoop lo llm maxAttempts maxAttempts 0 lean_code []).2 := rfl
  have h11 : (verify_and_refine_proof lo llm maxAttempts lean_code).1.1 =
      (vrLoop lo llm maxAttempts maxAttempts 0 lean_code []).1.1 := rfl
  constructor
  · intro pre c m post hs
    rw [h2] at hs
    obtain ⟨hpost, hres⟩ := hspec.2 pre c m post hs
    refine ⟨by rw [h11, hres], hpost, ?_⟩
    have hcount := hspec.1
    rw [hs, hpost] at hcount
    simp [List.countP_append, PCall.isVerify] at hcount
    omega
  · intro pre c m post hs
    cases hgen : llm.generate with
    | error e =>
      have hp : (process_proof lo llm maxAttempts stmt).2 = [PCall.genCall] := by
        simp [process_proof, process_proof_parts, hgen]
      rw [hp] at hs
      obtain ⟨-, heq, -⟩ := list_singleton_split hs
      simp at heq
    | ok raw =>
      cases hins : lo.installed with
      | false =>
        have hp : (process_proof lo llm maxAttempts stmt).2 =
            [PCall.genCall, PCall.explainCall] := by
          cases hex : llm.explain (clean_lean_code raw) <;>
            simp [process_proof, process_proof_parts, hgen, hins, hex]
        rw [hp] at hs
        obtain ⟨pre2, -, hs2⟩ := list_cons_split_ne hs (by simp)
        obtain ⟨-, heq, -⟩ := list_singleton_split hs2
        simp at heq
      | true =>
        have hp : (process_proof lo llm maxAttempts stmt).2 =
            PCall.genCall ::
              ((verify_and_refine_proof lo llm maxAttempts (clean_lean_code raw)).2 ++
                [PCall.explainCall]) := by
          cases hex : llm.explain (clean_lean_code raw) <;>
            simp [process_proof, process_proof_parts, hgen, hins, hex,
              verify_and_refine_proof]
        rw [hp] at hs
        obtain ⟨pre2, -, hs2⟩ := list_cons_split_ne hs (by simp)
        rcases List.append_eq_append_iff.mp hs2 with ⟨a2, -, hb⟩ | ⟨c2, hva, hd⟩
        · obtain ⟨-, heq, -⟩ := list_singleton_split hb
          simp at heq
        · cases c2 with
          | nil =>
            simp at hd
          | cons x c3 =>
            injection hd with hd1 hd2
            have hloop := vrLoop_trace_spec lo llm maxAttempts maxAttempts 0
              (clean_lean_code raw) []
            have hvv : (verify_and_refine_proof lo llm maxAttempts (clean_lean_code raw)).2 =
                (vrLoop lo llm maxAttempts maxAttempts 0 (clean_lean_code raw) []).2 := rfl
            rw [hvv] at hva
            rw [← hd1] at hva
            obtain ⟨hc3, -⟩ := hloop.2 pre2 c m c3 hva
            rw [hd2, hc3]
            simp [PCall.isGen, PCall.isRefine]

/-- Verifier oracle for the C3 witness: accepts exactly the candidate
`"simp"`. -/
def loC3 : LeanOracle :=
  ⟨true, fun c => if c = "simp" then (true, "证明验证成功！") else (false, "unsolved goals")⟩

/-- LLM oracle for the C3 witness: refinement yields the accepted
candidate. -/
def llmC3 : LLMOracle :=
  ⟨Except.ok "rfl", fun _ _ => Except.ok "simp", fun _ => Except.ok "explained"⟩

/-- Witness for C3 on a concrete run accepted at attempt 2 of 2: the loop
result is `True` and the acceptance is the final, second verifier call. -/
theorem refine_loop_stops_on_accept_witness :
    (verify_and_refine_proof loC3 llmC3 2 "rfl").1.1 = true ∧
    ([] : List PCall) = [] ∧
    [PCall.verifyCall "rfl" false "unsolved goals",
      PCall.refineCall "rfl" "unsolved goals"].countP PCall.isVerify + 1 ≤ 2 :=
  (refine_loop_stops_on_accept loC3 llmC3 2 "rfl" "n + 0 = n").1
    [PCall.verifyCall "rfl" false "unsolved goals",
      PCall.refineCall "rfl" "unsolved goals"] "simp" "证明验证成功！" [] (by decide)

/-- Verifier oracle with the toolchain probe failing, for the C1 analysis. -/
def loUninstalled : LeanOracle := ⟨false, fun _ => (false, "unused")⟩

/-- LLM oracle whose calls all succeed, for the C1 analysis. -/
def llmAllOk : LLMOracle :=
  ⟨Except.ok "theorem t : n + 0 = n := by simp", fun _ _ => Except.ok "fixed",
    fun _ => Except.ok "explanation text"⟩

/-- C1 counterexample: with the availability probe failing, the orchestrator
still performs a generation call — its trace contains a nonzero number of
generation calls, so it does not return immediately with an empty history
and zero generation calls as the claim states. -/
theorem process_proof_probe_failure_counterexample :
    (process_proof loUninstalled llmAllOk 3 "n + 0 = n").2.countP PCall.isGen ≠ 0 := by
  decide

/-- C1 (amended): if the pre-flight probe fails, zero verification calls
occur, but the orchestrator does not return immediately: it appends an
installation warning to its report and still performs the generation call. -/
theorem process_proof_probe_failure_behavior (lo : LeanOracle) (llm : LLMOracle)
    (maxAttempts : Nat) (stmt : String) (h : lo.installed = false) :
    (process_proof lo llm maxAttempts stmt).2.countP PCall.isVerify = 0 ∧
    PCall.genCall ∈ (process_proof lo llm maxAttempts stmt).2 ∧
    "**警告:** Lean4未安装，将只生成证明代码而无法验证。" ∈
      (process_proof_parts lo llm maxAttempts stmt).1 := by
  cases hgen : llm.generate with
  | error e =>
    refine ⟨?_, ?_, ?_⟩ <;>
      simp [process_proof, process_proof_parts, hgen, h, PCall.isVerify]
  | ok raw =>
    cases hex : llm.explain (clean_lean_code raw) with
    | error e =>
      refine ⟨?_, ?_, ?_⟩ <;>
        simp [process_proof, process_proof_parts, hgen, h, hex, PCall.isVerify]
    | ok expl =>
      refine ⟨?_, ?_, ?_⟩ <;>
        simp [process_proof, process_proof_parts, hgen, h, hex, PCall.isVerify]

/-- Witness for C1 (amended) on a concrete uninstalled-toolchain run. -/
theorem process_proof_probe_failure_behavior_witness :
    (process_proof loUninstalled llmAllOk 3 "n + 0 = n").2.countP PCall.isVerify = 0 :=
  (process_proof_probe_failure_behavior loUninstalled llmAllOk 3 "n + 0 = n" rfl).1

/- ## Theorems for claims C5, C9, C10 -/

/-- C9: for every invocation, the installation probe returns a boolean and
never raises — a subprocess timeout or a missing `lean` executable yields
`false` rather than an exception — and the probe is bounded by the 5-second
timeout constant passed to the subprocess call. -/
theorem check_lean_installation_never_raises (r : ProbeOutcome) :
    (check_lean_installation r = true ∨ check_lean_installation r = false) ∧
    check_lean_installation ProbeOutcome.timeoutExpired = false ∧
    check_lean_installation ProbeOutcome.fileNotFound = false ∧
    checkInstallationTimeout = 5 := by
  refine ⟨?_, rfl, rfl, rfl⟩
  cases check_lean_installation r
  · exact Or.inr rfl
  · exact Or.inl rfl

/-- Characterization of the temporary-file trace of `verify_proof`: past the
installation probe the trace is exactly create-then-unlink, on every path. -/
theorem verify_proof_ops (probe : ProbeOutcome) (run : RunOutcome) (timeoutCfg : Nat) :
    (verify_proof probe run timeoutCfg).2 =
      if check_lean_installation probe then [FileOp.create, FileOp.unlink] else [] := by
  unfold verify_proof
  cases check_lean_installation probe
  · simp
  · cases run with
    | completed rc out err =>
      by_cases hrc : rc == 0 <;> simp [hrc]
    | timeoutExpired => simp
    | raised m => simp

/-- C5: whenever `verify_proof` creates its temporary artifact (that is, on
every path past the installation probe: acceptance, rejection, timeout, any
exception), the artifact is released before the function returns. -/
theorem verify_proof_releases_temp_file (probe : ProbeOutcome) (run : RunOutcome)
    (timeoutCfg : Nat) :
    (check_lean_installation probe = true →
      (verify_proof probe run timeoutCfg).2 = [FileOp.create, FileOp.unlink]) ∧
    (FileOp.create ∈ (verify_proof probe run timeoutCfg).2 →
      FileOp.unlink ∈ (verify_proof probe run timeoutCfg).2) := by
  constructor
  · intro h
    rw [verify_proof_ops, h]
    simp
  · intro h
    rw [verify_proof_ops] at h ⊢
    by_cases hc : check_lean_installation probe = true
    · simp [hc]
    · simp [hc] at h

/-- Witness for C5 at a concrete timeout run: the probe succeeded, the
checker timed out, and the trace is exactly create-then-unlink. -/
theorem verify_proof_releases_temp_file_witness :
    (verify_proof (ProbeOutcome.completed 0) RunOutcome.timeoutExpired 30).2 =
      [FileOp.create, FileOp.unlink] :=
  (verify_proof_releases_temp_file (ProbeOutcome.completed 0)
    RunOutcome.timeoutExpired 30).1 (by decide)

/-- C10: a session created without an explicit title stores the statement
itself as title when the statement has at most 50 characters, and its first
50 characters followed by `"..."` otherwise; the stored statement is always
the unmodified input. -/
theorem create_session_default_title (statement : String) :
    (pyLen statement ≤ 50 → create_session statement none = (statement, statement)) ∧
    (50 < pyLen statement →
      create_session statement none = (pyTake 50 statement ++ "...", statement)) ∧
    (create_session statement none).2 = statement := by
  refine ⟨?_, ?_, rfl⟩
  · intro h
    simp [create_session, default_session_title, Nat.not_lt.mpr h]
  · intro h
    simp [create_session, default_session_title, h]

/-- Witness for C10 on a short and on a long statement. -/
theorem create_session_default_title_witness :
    create_session "p = p" none = ("p = p", "p = p") ∧
    create_session "aaaaaaaaaabbbbbbbbbbccccccccccddddddddddeeeeeeeeeefffff" none =
      (pyTake 50 "aaaaaaaaaabbbbbbbbbbccccccccccddddddddddeeeeeeeeeefffff" ++ "...",
        "aaaaaaaaaabbbbbbbbbbccccccccccddddddddddeeeeeeeeeefffff") :=
  ⟨(create_session_default_title "p = p").1 (by decide),
    (create_session_default_title
      "aaaaaaaaaabbbbbbbbbbccccccccccddddddddddeeeeeeeeeefffff").2.1 (by decide)⟩

/- ## Stream encoder: `app.py`, `StreamingProofProcessor.stream_proof_generation` -/

/-- The sentence-accumulation loop of the buffered-mode chunker
(`app.py` lines 101–115): walk the `。`-separated segments, skip
whitespace-only segments, restore the paragraph marker and strip each
sentence, append it to the buffer with a `。`, and flush the buffer when it
exceeds 200 characters or when the already-substituted sentence still
contains the paragraph marker; any remaining buffer is flushed at the end. -/
def chunkLoop : List String → String → List String
  | [], cur => if cur ≠ "" then [cur] else []
  | s :: rest, cur =>
    if pyStrip s ≠ "" then
      let s2 := pyStrip (pyReplace s "|PARAGRAPH|" "\n\n")
      let cur2 := cur ++ s2 ++ "。"
      if pyLen cur2 > 200 || pyContains s2 "|PARAGRAPH|" then
        cur2 :: chunkLoop rest ""
      else
        chunkLoop rest cur2
    else
      chunkLoop rest cur

/-- The buffered-mode chunking of a full response (`app.py` lines 96–115):
replace blank-line separators by the `|PARAGRAPH|` marker, replace remaining
newlines by spaces, split on `。`, and run the accumulation loop with an
empty buffer. -/
def proofChunks (content : String) : List String :=
  chunkLoop (pySplit '。' (pyReplace (pyReplace content "\n\n" "|PARAGRAPH|") "\n" " ")) ""

/-- Result of the litellm `completion` call as consumed by the generator:
either the response carries no usable `choices` (the content block is
skipped), or its message `content` is `None` (Python then raises at
`content.split()`), or it carries actual text. -/
inductive CompletionResult where
  | noChoices
  | contentNone
  | content (text : String)
deriving DecidableEq

/-- Environment of one run of `stream_proof_generation`: the outcome of
loading and formatting the system prompt (`_load_prompt` raises on a missing
file) and the outcome of the completion call. -/
structure StreamOracle where
  loadPrompt : Except String String
  completionCall : Except String CompletionResult

/-- Message of the exception Python raises at `content.split()` when the
message content is `None` (the exact interpreter wording is irrelevant to
the claims). -/
def noneContentError : String := "NoneType object has no attribute split"

/-- The events yielded inside the `try` block of `stream_proof_generation`
— each event as its `(type, content)` pair — together with the message of
the exception interrupting the block, if any.  On the success path the
`try` block itself yields the final `complete`. -/
def streamBody (o : StreamOracle) : List (String × String) × Option String :=
  let evs := [("status", "开始生成Lean4证明代码...")]
  match o.loadPrompt with
  | .error e => (evs, some e)
  | .ok _ =>
    let evs := evs ++ [("status", "正在连接AI服务...")]
    match o.completionCall with
    | .error e => (evs, some e)
    | .ok res =>
      let evs := evs ++ [("proof_start", "AI正在生成证明...")]
      match res with
      | .contentNone => (evs, some noneContentError)
      | .noChoices =>
        (evs ++ [("proof_end", ""), ("success", "证明生成完成"), ("complete", "")], none)
      | .content text =>
        (evs ++ (proofChunks text).map (fun c => ("proof_chunk", c)) ++
          [("proof_end", ""), ("success", "证明生成完成"), ("complete", "")], none)

/-- `stream_proof_generation`: the full event sequence of one run.  An
exception escaping the `try` block is converted by the `except` clause into
one `error` event carrying the message, followed by the terminal
`complete`. -/
def stream_proof_generation (o : StreamOracle) : List (String × String) :=
  match streamBody o with
  | (evs, none) => evs
  | (evs, some e) => evs ++ [("error", "错误: " ++ e), ("complete", "")]

/-- Number of events of a given type in an event sequence. -/
def countType (evs : List (String × String)) (ty : String) : Nat :=
  evs.countP (fun e => e.1 == ty)

/- ## Resilient call wrapper: `beta.py`, `formator` -/

/-- Outcome of one `chat.completions.create` call as seen by `formator`: a
successful response carrying the (possibly `None`) message content, or one
of the exception classes distinguished by the `except` clauses. -/
inductive ApiOutcome where
  | ok (content : Option String)
  | connectionError
  | rateLimitError
  | apiError (msg : String)
  | otherError (msg : String)
deriving DecidableEq

/-- The retry loop of `formator` in `beta.py`: `call k` is the outcome of
the `k`-th (zero-based) completion attempt.  Returns the string result of
the source together with the list of `time.sleep` delays (in seconds)
performed between attempts: `2 ^ k` after a connection error on attempt `k`,
`10 * (k + 1)` after a rate limit on attempt `k`, retrying only while
`attempt < max_retries - 1`; API errors and unclassified exceptions return
immediately; a successful call returns its content unless the content is
`None` or empty, in which case the bare failure marker is returned. -/
def formatorLoop (call : Nat → ApiOutcome) (maxRetries : Nat) :
    Nat → Nat → List Nat → String × List Nat
  | 0, _, delays => ("formalize failed", delays)
  | fuel + 1, attempt, delays =>
    match call attempt with
    | .ok content =>
      (match content with
       | some s => if s = "" then "formalize failed" else s
       | none => "formalize failed", delays)
    | .connectionError =>
      if attempt < maxRetries - 1 then
        formatorLoop call maxRetries fuel (attempt + 1) (delays ++ [2 ^ attempt])
      else
        ("formalize failed - connection error", delays)
    | .rateLimitError =>
      if attempt < maxRetries - 1 then
        formatorLoop call maxRetries fuel (attempt + 1) (delays ++ [10 * (attempt + 1)])
      else
        ("formalize failed - rate limited", delays)
    | .apiError m => ("formalize failed - API error: " ++ m, delays)
    | .otherError m => ("formalize failed - unexpected error: " ++ m, delays)

/-- `formator` (`beta.py`): `max_retries = 3` total attempts, starting at
attempt 0 with no delays performed yet. -/
def formator (call : Nat → ApiOutcome) : String × List Nat :=
  formatorLoop call 3 3 0 []

/- ## Theorems for claims C4, C7, C8 -/

/-- Additivity of the per-type event count over concatenation. -/
theorem countType_append (a b : List (String × String)) (ty : String) :
    countType (a ++ b) ty = countType a ty + countType b ty := by
  simp [countType, List.countP_append]

/-- Chunk events contribute nothing to the count of any other event type. -/
theorem countType_chunk_map (cs : List String) (ty : String)
    (h : ("proof_chunk" == ty) = false) :
    countType (cs.map (fun c => ("proof_chunk", c))) ty = 0 := by
  induction cs with
  | nil => rfl
  | cons c cs ih =>
    simp only [List.map_cons, countType, List.countP_cons] at ih ⊢
    simp [h, ih]

/-- C4: every event sequence produced by the stream encoder contains exactly
one `complete` event and it is the last event; on an exception the sequence
is the interrupted prefix (which contains no `complete` and no `error`)
followed by a single `error` event and the terminal `complete`, with no
event after it. -/
theorem stream_single_terminal_complete (o : StreamOracle) :
    countType (stream_proof_generation o) "complete" = 1 ∧
    (stream_proof_generation o).getLast? = some ("complete", "") ∧
    ((streamBody o).2 = none ∨
      ∃ e, (streamBody o).2 = some e ∧
        stream_proof_generation o =
          (streamBody o).1 ++ [("error", "错误: " ++ e), ("complete", "")] ∧
        countType (streamBody o).1 "complete" = 0 ∧
        countType (streamBody o).1 "error" = 0) := by
  obtain ⟨lp, cc⟩ := o
  cases lp with
  | error e => exact ⟨rfl, rfl, Or.inr ⟨e, rfl, rfl, rfl, rfl⟩⟩
  | ok p =>
    cases cc with
    | error e => exact ⟨rfl, rfl, Or.inr ⟨e, rfl, rfl, rfl, rfl⟩⟩
    | ok res =>
      cases res with
      | contentNone => exact ⟨rfl, rfl, Or.inr ⟨noneContentError, rfl, rfl, rfl, rfl⟩⟩
      | noChoices => exact ⟨rfl, rfl, Or.inl rfl⟩
      | content text =>
        have hshape : stream_proof_generation ⟨Except.ok p, Except.ok (CompletionResult.content text)⟩ =
            [("status", "开始生成Lean4证明代码..."), ("status", "正在连接AI服务..."),
              ("proof_start", "AI正在生成证明...")] ++
              ((proofChunks text).map (fun c => ("proof_chunk", c)) ++
                [("proof_end", ""), ("success", "证明生成完成"), ("complete", "")]) := by
          simp [stream_proof_generation, streamBody]
        refine ⟨?_, ?_, Or.inl rfl⟩
        · rw [hshape, countType_append, countType_append,
            countType_chunk_map (proofChunks text) "complete" rfl]
          decide
        · rw [hshape, List.getLast?_append, List.getLast?_append]
          rfl

/-- Stream oracle whose prompt-file load raises, for the C7 analysis. -/
def streamPromptMissing : StreamOracle :=
  ⟨Except.error "提示文件未找到: prompts/system_prompt.txt",
    Except.ok (CompletionResult.content "x")⟩

/-- C7 counterexample: when the prompt file is missing, the produced failing
run contains no `proof_start` event at all, refuting the claim that every
run, success or failure, contains exactly one `proof_start` (and likewise it
contains no `proof_end`). -/
theorem stream_missing_proof_start_counterexample :
    countType (stream_proof_generation streamPromptMissing) "proof_start" ≠ 1 := by
  decide

/-- C7 (amended): on a successful run the emitted sequence is exactly two
`status` events, one `proof_start`, zero or more `proof_chunk` events, one
`proof_end`, one `success`, and the terminal `complete`.  On a failing run
the sequence is a prefix of that shape — the first status, possibly the
second status, possibly `proof_start` — followed by exactly one `error` and
the terminal `complete`; `proof_end`, `success` and `proof_chunk` events
occur only on successful runs. -/
theorem stream_event_order (o : StreamOracle) :
    (∃ cs : List String, stream_proof_generation o =
      [("status", "开始生成Lean4证明代码..."), ("status", "正在连接AI服务..."),
        ("proof_start", "AI正在生成证明...")] ++
        List.map (fun c => ("proof_chunk", c)) cs ++
        [("proof_end", ""), ("success", "证明生成完成"), ("complete", "")]) ∨
    (∃ e, stream_proof_generation o =
      [("status", "开始生成Lean4证明代码..."),
        ("error", "错误: " ++ e), ("complete", "")]) ∨
    (∃ e, stream_proof_generation o =
      [("status", "开始生成Lean4证明代码..."), ("status", "正在连接AI服务..."),
        ("error", "错误: " ++ e), ("complete", "")]) ∨
    (∃ e, stream_proof_generation o =
      [("status", "开始生成Lean4证明代码..."), ("status", "正在连接AI服务..."),
        ("proof_start", "AI正在生成证明..."),
        ("error", "错误: " ++ e), ("complete", "")]) := by
  obtain ⟨lp, cc⟩ := o
  cases lp with
  | error e => exact Or.inr (Or.inl ⟨e, rfl⟩)
  | ok p =>
    cases cc with
    | error e => exact Or.inr (Or.inr (Or.inl ⟨e, rfl⟩))
    | ok res =>
      cases res with
      | contentNone => exact Or.inr (Or.inr (Or.inr ⟨noneContentError, rfl⟩))
      | noChoices => exact Or.inl ⟨[], rfl⟩
      | content text =>
        exact Or.inl ⟨proofChunks text, by simp [stream_proof_generation, streamBody]⟩

/-- C8: evaluation of the buffered-mode chunker at the failing input
`"A。\n\nB。"`.  A paragraph boundary separates the two sentences, yet the
encoder emits one single chunk in which the blank-line separator has been
dropped: the flush-on-paragraph branch can never fire, because the sentence
has already had the marker substituted away (and stripped) before the
`"|PARAGRAPH|" in sentence` check — contradicting the source's own comment
that the buffer is flushed on a paragraph separator. -/
theorem chunking_paragraph_flush_dead :
    proofChunks "A。\n\nB。" = ["A。B。"] := by
  decide

/- ## Theorems for claim C6 -/

/-- Classification of the results of the `formator` retry loop: the payload
of a successful in-range attempt with nonempty content, or one of the
failure strings the source returns. -/
theorem formatorLoop_result_classes (call : Nat → ApiOutcome) (maxR : Nat) :
    ∀ (fuel attempt : Nat) (delays : List Nat),
      (∃ s, s ≠ "" ∧ (formatorLoop call maxR fuel attempt delays).1 = s ∧
        ∃ k, attempt ≤ k ∧ k < attempt + fuel ∧ call k = ApiOutcome.ok (some s)) ∨
      (formatorLoop call maxR fuel attempt delays).1 = "formalize failed" ∨
      (formatorLoop call maxR fuel attempt delays).1 = "formalize failed - connection error" ∨
      (formatorLoop call maxR fuel attempt delays).1 = "formalize failed - rate limited" ∨
      (∃ m, (formatorLoop call maxR fuel attempt delays).1 =
        "formalize failed - API error: " ++ m) ∨
      (∃ m, (formatorLoop call maxR fuel attempt delays).1 =
        "formalize failed - unexpected error: " ++ m) := by
  intro fuel
  induction fuel with
  | zero =>
    intro attempt delays
    exact Or.inr (Or.inl rfl)
  | succ fuel ih =>
    intro attempt delays
    rcases hc : call attempt with content | - | - | m | m
    · cases content with
      | none => exact Or.inr (Or.inl (by simp [formatorLoop, hc]))
      | some s =>
        by_cases hs : s = ""
        · exact Or.inr (Or.inl (by simp [formatorLoop, hc, hs]))
        · exact Or.inl ⟨s, hs, by simp [formatorLoop, hc, hs],
            attempt, le_refl _, by omega, hc⟩
    · by_cases ha : attempt < maxR - 1
      · have hstep : (formatorLoop call maxR (fuel + 1) attempt delays).1 =
            (formatorLoop call maxR fuel (attempt + 1) (delays ++ [2 ^ attempt])).1 := by
          simp [formatorLoop, hc, ha]
        rcases ih (attempt + 1) (delays ++ [2 ^ attempt]) with
          ⟨s, hs, hr, k, hk1, hk2, hck⟩ | h | h | h | ⟨m, h⟩ | ⟨m, h⟩
        · exact Or.inl ⟨s, hs, hstep.trans hr, k, by omega, by omega, hck⟩
        · exact Or.inr (Or.inl (hstep.trans h))
        · exact Or.inr (Or.inr (Or.inl (hstep.trans h)))
        · exact Or.inr (Or.inr (Or.inr (Or.inl (hstep.trans h))))
        · exact Or.inr (Or.inr (Or.inr (Or.inr (Or.inl ⟨m, hstep.trans h⟩))))
        · exact Or.inr (Or.inr (Or.inr (Or.inr (Or.inr ⟨m, hstep.trans h⟩))))
      · exact Or.inr (Or.inr (Or.inl (by simp [formatorLoop, hc, ha])))
    · by_cases ha : attempt < maxR - 1
      · have hstep : (formatorLoop call maxR (fuel + 1) attempt delays).1 =
            (formatorLoop call maxR fuel (attempt + 1) (delays ++ [10 * (attempt + 1)])).1 := by
          simp [formatorLoop, hc, ha]
        rcases ih (attempt + 1) (delays ++ [10 * (attempt + 1)]) with
          ⟨s, hs, hr, k, hk1, hk2, hck⟩ | h | h | h | ⟨m, h⟩ | ⟨m, h⟩
        · exact Or.inl ⟨s, hs, hstep.trans hr, k, by omega, by omega, hck⟩
        · exact Or.inr (Or.inl (hstep.trans h))
        · exact Or.inr (Or.inr (Or.inl (hstep.trans h)))
        · exact Or.inr (Or.inr (Or.inr (Or.inl (hstep.trans h))))
        · exact Or.inr (Or.inr (Or.inr (Or.inr (Or.inl ⟨m, hstep.trans h⟩))))
        · exact Or.inr (Or.inr (Or.inr (Or.inr (Or.inr ⟨m, hstep.trans h⟩))))
      · exact Or.inr (Or.inr (Or.inr (Or.inl (by simp [formatorLoop, hc, ha]))))
    · exact Or.inr (Or.inr (Or.inr (Or.inr (Or.inl ⟨m, by simp [formatorLoop, hc]⟩))))
    · exact Or.inr (Or.inr (Or.inr (Or.inr (Or.inr ⟨m, by simp [formatorLoop, hc]⟩))))

/-- C6 counterexample: a completion call that succeeds with empty content
makes `formator` return the bare string `"formalize failed"`, which is
neither the successful payload (the empty string) nor a failure marker
tagged with one of the four exception classes — every tagged marker starts
with `"formalize failed - "`, which this result does not. -/
theorem formator_untagged_failure_counterexample :
    (formator (fun _ => ApiOutcome.ok (some ""))).1 = "formalize failed" ∧
    (formator (fun _ => ApiOutcome.ok (some ""))).1 ≠ "" ∧
    pyStartsWith (formator (fun _ => ApiOutcome.ok (some ""))).1
      "formalize failed - " = false := by
  decide

/-- C6 (amended): `formator` never raises and always returns a string — the
payload when some attempt succeeds with nonempty content, the bare untagged
marker `"formalize failed"` when the call succeeds with empty or `None`
content, or a marker tagged with the exception class otherwise.  Connection
failures are retried up to 3 total attempts with exponential backoff delays
of `2 ^ k` seconds, hence 1s then 2s between the three attempts (a 4s delay
would require a fourth attempt); rate limits are retried with `10 * (k + 1)`
second delays (10s then 20s); API errors and unclassified exceptions fail
immediately, with no retry and no delay. -/
theorem formator_resilient_contract (call : Nat → ApiOutcome) :
    ((∃ s, s ≠ "" ∧ (formator call).1 = s ∧
        ∃ k, k < 3 ∧ call k = ApiOutcome.ok (some s)) ∨
      (formator call).1 = "formalize failed" ∨
      (formator call).1 = "formalize failed - connection error" ∨
      (formator call).1 = "formalize failed - rate limited" ∨
      (∃ m, (formator call).1 = "formalize failed - API error: " ++ m) ∨
      (∃ m, (formator call).1 = "formalize failed - unexpected error: " ++ m)) ∧
    ((∀ k, k < 3 → call k = ApiOutcome.connectionError) →
      formator call = ("formalize failed - connection error", [1, 2])) ∧
    ((∀ k, k < 3 → call k = ApiOutcome.rateLimitError) →
      formator call = ("formalize failed - rate limited", [10, 20])) ∧
    (∀ m, call 0 = ApiOutcome.apiError m →
      formator call = ("formalize failed - API error: " ++ m, [])) ∧
    (∀ m, call 0 = ApiOutcome.otherError m →
      formator call = ("formalize failed - unexpected error: " ++ m, [])) := by
  refine ⟨?_, ?_, ?_, ?_, ?_⟩
  · rcases formatorLoop_result_classes call 3 3 0 [] with
      ⟨s, hs, hr, k, -, hk2, hck⟩ | h | h | h | ⟨m, h⟩ | ⟨m, h⟩
    · exact Or.inl ⟨s, hs, hr, k, by omega, hck⟩
    · exact Or.inr (Or.inl h)
    · exact Or.inr (Or.inr (Or.inl h))
    · exact Or.inr (Or.inr (Or.inr (Or.inl h)))
    · exact Or.inr (Or.inr (Or.inr (Or.inr (Or.inl ⟨m, h⟩))))
    · exact Or.inr (Or.inr (Or.inr (Or.inr (Or.inr ⟨m, h⟩))))
  · intro hcall
    have h0 := hcall 0 (by norm_num)
    have h1 := hcall 1 (by norm_num)
    have h2 := hcall 2 (by norm_num)
    simp [formator, formatorLoop, h0, h1, h2]
  · intro hcall
    have h0 := hcall 0 (by norm_num)
    have h1 := hcall 1 (by norm_num)
    have h2 := hcall 2 (by norm_num)
    simp [formator, formatorLoop, h0, h1, h2]
  · intro m hm
    simp [formator, formatorLoop, hm]
  · intro m hm
    simp [formator, formatorLoop, hm]

/-- Witness for C6 (amended): under a persistent connection fault the
wrapper performs exactly three attempts with the 1s and 2s backoff delays
and returns the connection-tagged failure marker. -/
theorem formator_resilient_contract_witness :
    formator (fun _ => ApiOutcome.connectionError) =
      ("formalize failed - connection error", [1, 2]) :=
  (formator_resilient_contract (fun _ => ApiOutcome.connectionError)).2.1
    (fun _ _ => rfl)
